import Mathlib

/-!
# mongodb-index-advisor: redaction and pipeline driver

A shallow embedding of `main.go`: the redactor `removeKeysAndReplace`, the two advisory
clients `askChatGPT` and `askOllama`, and the driver `main` with its per-shape loop.

* A `bson.M` is an association list; a Go map has each key once, and every result below
  holds for all association lists, those included.
* The redactor is given twice: on documents by value, and on a heap of map objects with
  Go's references, where a map passed as sentinel can also occur inside the document.
* Effects are explicit: a run yields the list of its events (lines on standard output,
  log lines, advisory calls) and the way it ends (`Outcome`).
* The outside world (store, JSON encoder, hosted API, local server) is a parameter of the
  run; time-outs show up as the errors these calls return.
-/

namespace IndexAdvisor

/-! ### Documents and the redactor -/

/-- A value held in a `bson.M`. `doc` is a nested `bson.M`, the only case the type switch of
`removeKeysAndReplace` singles out; `other` stands for every further Go value (float64,
ObjectID, DateTime, bson.D, ...), given by its type name and text. -/
inductive Value where
  | null
  | bool (b : Bool)
  | int (i : Int)
  | str (s : String)
  | arr (xs : List Value)
  | doc (m : List (String × Value))
  | other (goType : String) (text : String)

/-- The Go type `bson.M`. -/
abbrev M := List (String × Value)

/-- The builtin `delete(query, key)`. -/
def delete (query : M) (key : String) : M := query.filter (fun kv => kv.1 != key)

/-- Source lines 181-194 on documents by value: first the loop deleting every key of
`keysToRemove`, then the loop over the remaining entries, recursing into `bson.M` values and
overwriting all others. The code works in place on references; `removeKeysAndReplaceInPlace`
below keeps them. -/
def removeKeysAndReplace (query : M) (keysToRemove : List String) (replaceValue : Value) : M :=
  (keysToRemove.foldl delete query).attach.map fun kv =>
    match kv with
    | ⟨(k, .doc vt), _⟩ => (k, .doc (removeKeysAndReplace vt keysToRemove replaceValue))
    | ⟨(k, _), _⟩ => (k, replaceValue)
termination_by sizeOf query
decreasing_by
  rename_i h
  have sub : ∀ (ks : List String) (q : M) (x : String × Value),
      x ∈ ks.foldl delete q → x ∈ q := by
    intro ks
    induction ks with
    | nil => intro q x hx; exact hx
    | cons a t ih =>
      intro q x hx
      have h1 := ih (delete q a) x hx
      exact (List.mem_filter.mp h1).1
  have hm := sub keysToRemove query _ h
  have h1 := List.sizeOf_lt_of_mem hm
  simp at h1
  omega

/-- The key list passed at source line 117. -/
def fixedKeys : List String :=
  ["projection", "lsid", "limit", "$db", "singleBatch", "find", "$clusterTime",
    "$readPreference"]

def Value.isMapping : Value → Bool
  | .doc _ => true
  | _ => false

/-- Map indexing `m[key]`. -/
def index (m : M) (key : String) : Option Value := List.lookup key m

/-- The keys of one mapping level. -/
def keysOf (m : M) : List String := m.map Prod.fst

/-- The mapping reached from `m` by following the keys of a path, if there is one. -/
def levelAt : M → List String → Option M
  | m, [] => some m
  | m, k :: path =>
    match index m k with
    | some (.doc sub) => levelAt sub path
    | _ => none

/-- The value stored at a non-empty path of keys, if there is one. -/
def valueAt : M → List String → Option Value
  | _, [] => none
  | m, [k] => index m k
  | m, k :: path =>
    match index m k with
    | some (.doc sub) => valueAt sub path
    | _ => none

/-- The type switch in the second loop of `removeKeysAndReplace`. -/
def redactValue (keysToRemove : List String) (replaceValue : Value) : Value → Value
  | .doc vt => .doc (removeKeysAndReplace vt keysToRemove replaceValue)
  | _ => replaceValue

/-- A key survives the deleting loop when it is not in the key list. -/
def kept (keysToRemove : List String) (k : String) : Bool := !keysToRemove.contains k

/-- The example document of the specification. -/
def exampleCommand : M :=
  [("find", .str "orders"), ("filter", .doc [("status", .str "open"), ("$db", .str "x")]),
    ("limit", .int 10)]

/-- A command whose filter holds a sequence of mappings. -/
def sequenceCommand : M :=
  [("find", .str "orders"),
    ("filter", .doc [("$or", .arr [.doc [("status", .str "open")], .doc [("qty", .int 5)]])])]


/-! ### The redactor with Go's reference semantics

A `bson.M` is a reference: `query[k] = replaceValue` stores the sentinel without copying it,
and the recursive call changes the map it is handed. `removeKeysAndReplace` above works on
documents by value, which is what the code computes when no map of the document is the
sentinel itself or a map inside it. The heap model below keeps the references. -/

/-- A Go value with maps held by reference: `map a` is the `bson.M` at heap address `a`;
`other` stands for every further value, sequences included. -/
inductive GoValue where
  | null
  | bool (b : Bool)
  | int (i : Int)
  | str (s : String)
  | map (addr : Nat)
  | other (goType : String) (text : String)

/-- The entries of one map object. -/
abbrev MapCell := List (String × GoValue)

/-- The map objects by address. -/
abbrev Heap := List (Nat × MapCell)

/-- The map object at an address. -/
def Heap.load (h : Heap) (a : Nat) : MapCell := (List.lookup a h).getD []

/-- The heap with the map object at an address replaced. -/
def Heap.store : Heap → Nat → MapCell → Heap
  | [], a, m => [(a, m)]
  | (b, n) :: rest, a, m => if b == a then (b, m) :: rest else (b, n) :: Heap.store rest a m

/-- The builtin `delete(query, key)` on a map object. -/
def deleteCell (query : MapCell) (key : String) : MapCell := query.filter (fun kv => kv.1 != key)

/-- The assignment `query[key] = v` on a map object. -/
def assignCell : MapCell → String → GoValue → MapCell
  | [], key, v => [(key, v)]
  | (k, w) :: rest, key, v => if k == key then (k, v) :: rest else (k, w) :: assignCell rest key v

/-- Source lines 181-194 on the heap. The first loop deletes the keys from the map object at
`query`. The second loop visits its entries, reads the value the entry holds at that moment,
and either recurses into the map it refers to and stores the returned reference, or stores
`replaceValue`. The result is the heap afterwards; the returned reference is `query` itself.
The first argument bounds the depth of the recursion, which does not end on a cyclic heap. -/
def removeKeysAndReplaceInPlace :
    Nat → Heap → Nat → List String → GoValue → Option Heap
  | 0, _, _, _, _ => none
  | fuel + 1, h, query, keysToRemove, replaceValue =>
    let h₁ := h.store query (keysToRemove.foldl deleteCell (h.load query))
    (h₁.load query).foldlM
      (fun hp kv =>
        match List.lookup kv.1 (hp.load query) with
        | some (.map vt) =>
          match removeKeysAndReplaceInPlace fuel hp vt keysToRemove replaceValue with
          | some hq => some (hq.store query (assignCell (hq.load query) kv.1 (.map vt)))
          | none => none
        | some _ => some (hp.store query (assignCell (hp.load query) kv.1 replaceValue))
        | none => some hp)
      h₁

/-- The document at an address read by value, to the given depth. -/
def readDocument : Nat → Heap → Nat → Option M
  | 0, _, _ => none
  | fuel + 1, h, a =>
    (h.load a).mapM fun kv =>
      match kv.2 with
      | .map b => (readDocument fuel h b).map fun m => (kv.1, Value.doc m)
      | .null => some (kv.1, Value.null)
      | .bool b => some (kv.1, Value.bool b)
      | .int i => some (kv.1, Value.int i)
      | .str s => some (kv.1, Value.str s)
      | .other t u => some (kv.1, Value.other t u)

/-- A heap where the document at address 0 holds, under "x", the very map at address 1
that is also passed as the sentinel. -/
def aliasedHeap : Heap := [(0, [("x", .map 1)]), (1, [("a", .int 1)])]

/-- A heap where the document at address 0 holds, under "x", a map of its own at address 2;
the sentinel map is at address 1. -/
def separateHeap : Heap :=
  [(0, [("x", .map 2)]), (1, [("a", .int 1)]), (2, [("a", .int 2)])]

/-- The example document of the specification on the heap. -/
def exampleHeap : Heap :=
  [(0, [("find", .str "orders"), ("filter", .map 1), ("limit", .int 10)]),
    (1, [("status", .str "open"), ("$db", .str "x")])]

/-! ### Advisory clients -/

/-- JSON values as `encoding/json` decodes them into `interface{}`. -/
inductive JSON where
  | null
  | bool (b : Bool)
  | number (n : Int)
  | str (s : String)
  | arr (xs : List JSON)
  | obj (m : List (String × JSON))

/-- Result of a Go call returning `(T, error)`, with the run-time panic as a third case. -/
inductive GoResult (α : Type) where
  | ok (v : α)
  | err (e : String)
  | panic (msg : String)

/-- The go-openai message, request, choice and response types, with the fields the source
reads or writes. -/
structure ChatCompletionMessage where
  role : String
  content : String

structure ChatCompletionRequest where
  model : String
  maxTokens : Int
  messages : List ChatCompletionMessage

structure ChatCompletionChoice where
  message : ChatCompletionMessage

structure ChatCompletionResponse where
  choices : List ChatCompletionChoice

/-- Request body built by `askOllama`. -/
structure OllamaRequest where
  model : String
  messages : List (String × String)

/-- What `http.Post` followed by the JSON decoder yields. -/
inductive PostOutcome where
  | transportError (e : String)
  | decodeError (e : String)
  | decoded (response : List (String × JSON))

/-- Observable effects of a run, in program order. -/
inductive Event where
  | stdout (line : String)
  | log (line : String)
  | chatCompletion (req : ChatCompletionRequest)
  | httpPost (uri : String) (contentType : String) (body : String)

/-- The hosted API as seen by `client.CreateChatCompletion`. -/
abbrev ChatClient := ChatCompletionRequest → Except String ChatCompletionResponse

/-- The local server as seen by `json.Marshal`, `http.Post` and the decoder. -/
structure OllamaServer where
  marshal : OllamaRequest → Except String String
  post : String → String → String → PostOutcome

/-- Source lines 196-220. -/
def askChatGPT (client : ChatClient) (maxTokens : Int) (promptSystem promptUser : String) :
    List Event × GoResult String :=
  let req : ChatCompletionRequest :=
    { model := "gpt-3.5-turbo"
      maxTokens := maxTokens
      messages := [⟨"system", promptSystem⟩, ⟨"user", promptUser⟩] }
  match client req with
  | .error e => ([.chatCompletion req], .err e)
  | .ok resp =>
    match resp.choices with
    | [] => ([.chatCompletion req], .panic "runtime error: index out of range [0] with length 0")
    | c :: _ => ([.chatCompletion req], .ok c.message.content)

/-- Source lines 222-268. -/
def askOllama (server : OllamaServer) (uri model promptSystem promptUser : String) :
    List Event × GoResult String :=
  match server.marshal ⟨model, [("system", promptSystem), ("user", promptUser)]⟩ with
  | .error e => ([.stdout ("Error creating request body: " ++ e)], .err e)
  | .ok requestBody =>
    match server.post uri "application/json" requestBody with
    | .transportError e =>
      ([.httpPost uri "application/json" requestBody, .stdout ("Error making request: " ++ e)],
        .err e)
    | .decodeError e =>
      ([.httpPost uri "application/json" requestBody,
          .stdout ("Error decoding response: " ++ e)], .err e)
    | .decoded response =>
      match List.lookup "choices" response with
      | some (.arr (first :: _)) =>
        match first with
        | .obj firstChoice =>
          match List.lookup "message" firstChoice with
          | some (.obj message) =>
            match List.lookup "content" message with
            | some (.str content) => ([.httpPost uri "application/json" requestBody], .ok content)
            | _ => ([.httpPost uri "application/json" requestBody], .ok "")
          | _ => ([.httpPost uri "application/json" requestBody], .ok "")
        | _ => ([.httpPost uri "application/json" requestBody], .ok "")
      | _ =>
        ([.httpPost uri "application/json" requestBody, .stdout "Failed to parse ollama response"],
          .ok "")

/-! ### Pipeline driver -/

/-- The command-line flags. -/
structure Config where
  mongoURI : String
  dbName : String
  aiProvider : String
  ollamaModel : String
  openaiApiKey : String
  openaiMaxTokens : Int
  millis : Int

/-- One distinct `queryHash`, with what `FindOne` and the two backends answer while it is
processed. -/
structure Shape where
  hash : String
  findOne : Except String M
  chat : ChatClient
  ollama : OllamaServer

/-- The answers of the store and of `json.MarshalIndent`: errors of `mongo.Connect` and
`Ping`, the result of `Distinct`, the encoder, and the error of the deferred `Disconnect`. -/
structure World where
  connect : Option String
  ping : Option String
  distinct : Except String (List Shape)
  marshalIndent : M → Except String String
  disconnect : Option String

/-- How a run ends: `main` returns, `os.Exit`, `log.Fatal`, or a run-time panic. -/
inductive Outcome where
  | returned
  | exit (code : Nat)
  | fatal (msg : String)
  | panic (msg : String)

structure Run where
  trace : List Event
  outcome : Outcome

/-- The system prompt of source line 134. -/
def promptSystem : String := "Act as a devops/dba. Mongodb slow query from profiler will be provided to you. Answer only with index creation query without additional info. Using The ESR (Equality, Sort, Range) Rule create MongoDB index for profiler query. ESR: 'Equality' refers to an exact match on a single value; 'Sort' determines the order for results; 'Range' filters scan fields. The scan doesn't require an exact match. Additional Considerations: Inequality operators such as $ne or $nin are range operators, not equality operators. $regex is a range operator. When $in is used alone, it is an equality operator that performs a series of equality matches. When $in is used with .sort(), $in can act like a range operator"

/-- The delimiter `strings.Repeat("-", 100)`. -/
def hyphens : String := String.mk (List.replicate 100 '-')

/-- Map assignment `m[key] = v`. -/
def assign (m : M) (key : String) (v : Value) : M :=
  match m with
  | [] => [(key, v)]
  | (k, w) :: rest => if k == key then (k, v) :: rest else (k, w) :: assign rest key v

/-- The `switch *aiProvider` block of the loop body; `none` means the loop goes on. -/
def advise (cfg : Config) (sh : Shape) (promptUser : String) : List Event × Option Outcome :=
  if cfg.aiProvider == "openai" then
    if cfg.openaiApiKey == "" then
      ([], some (.fatal "OpenAI API key is required"))
    else
      match askChatGPT sh.chat cfg.openaiMaxTokens promptSystem promptUser with
      | (evs, .panic msg) => (evs, some (.panic msg))
      | (evs, .err e) => (evs, some (.fatal ("Failed to get response from ChatGPT: " ++ e)))
      | (evs, .ok response) =>
        (evs ++ [.stdout "Response from ChatGPT:", .stdout hyphens, .stdout response,
          .stdout hyphens, .stdout ""], none)
  else if cfg.aiProvider == "ollama" then
    match askOllama sh.ollama "http://localhost:11434/v1/chat/completions" cfg.ollamaModel
        promptSystem promptUser with
    | (evs, .panic msg) => (evs, some (.panic msg))
    | (evs, .err e) => (evs, some (.fatal ("Failed to get response from Ollama: " ++ e)))
    | (evs, .ok response) =>
      (evs ++ [.stdout ("Response from Ollama (" ++ cfg.ollamaModel ++ "):"), .stdout hyphens,
        .stdout response, .stdout hyphens, .stdout ""], none)
  else
    ([], none)

/-- One iteration of the `for _, hash := range distinctQueryHash` loop. -/
def processShape (cfg : Config) (w : World) (sh : Shape) : List Event × Option Outcome :=
  match sh.findOne with
  | .error e =>
    ([.stdout ("Query Hash: " ++ sh.hash),
      .log ("Failed to find document for current hash:  " ++ e)], none)
  | .ok result =>
    match index result "command" with
    | some (.doc commandField) =>
      let commandField := removeKeysAndReplace commandField fixedKeys (.str "redacted")
      let result := assign result "command" (.doc commandField)
      match w.marshalIndent result with
      | .error e =>
        ([.stdout ("Query Hash: " ++ sh.hash)],
          some (.fatal ("Failed to marshal document to JSON: " ++ e)))
      | .ok jsonResult =>
        let (evs, o) := advise cfg sh jsonResult
        ([.stdout ("Query Hash: " ++ sh.hash), .stdout "Redacted Query:", .stdout jsonResult,
          .stdout ""] ++ evs, o)
    | _ =>
      ([.stdout ("Query Hash: " ++ sh.hash)],
        some (.fatal "Failed to extract command field from document"))

/-- The loop of source lines 85-178: an iteration that ends the run stops the loop. -/
def loop (cfg : Config) (w : World) : List Shape → List Event × Option Outcome
  | [] => ([], none)
  | sh :: rest =>
    match processShape cfg w sh with
    | (evs, some o) => (evs, some o)
    | (evs, none) =>
      let (evs2, o) := loop cfg w rest
      (evs ++ evs2, o)

/-- The two lines printed before the loop. -/
def header (distinctQueryHash : List Shape) : List Event :=
  [.stdout ("Distinct queryHash values: ["
      ++ " ".intercalate (distinctQueryHash.map Shape.hash) ++ "]"),
    .stdout ""]

/-- Source lines 21-179. `log.Fatal` and `os.Exit` end the process without running the
deferred `Disconnect`; a normal return and a panic run it. -/
def main (cfg : Config) (w : World) : Run :=
  match w.connect with
  | some e => ⟨[], .fatal e⟩
  | none =>
    match w.ping with
    | some e => ⟨[], .fatal e⟩
    | none =>
      match w.distinct with
      | .error e =>
        ⟨[], .fatal ("Failed to fetch queryHash from system.profile collection: " ++ e)⟩
      | .ok distinctQueryHash =>
        if distinctQueryHash.length = 0 then
          ⟨[.stdout ("No suitable queryHash found in " ++ cfg.dbName ++ " db")], .exit 0⟩
        else
          match loop cfg w distinctQueryHash with
          | (evs, some (.panic msg)) =>
            match w.disconnect with
            | some e => ⟨header distinctQueryHash ++ evs, .fatal e⟩
            | none => ⟨header distinctQueryHash ++ evs, .panic msg⟩
          | (evs, some o) => ⟨header distinctQueryHash ++ evs, o⟩
          | (evs, none) =>
            match w.disconnect with
            | some e => ⟨header distinctQueryHash ++ evs, .fatal e⟩
            | none => ⟨header distinctQueryHash ++ evs, .returned⟩

/-- The events that are requests to an advisory backend. -/
def Event.isAdvisoryCall : Event → Bool
  | .chatCompletion _ => true
  | .httpPost _ _ _ => true
  | _ => false



/-! ### Sample runs -/

/-- The default flags with the given API key. -/
def hostedConfig (openaiApiKey : String) : Config :=
  ⟨"mongodb://127.0.0.1:27017", "default", "openai", "llama3", openaiApiKey, 500, 0⟩

/-- A profiler entry as projected at source lines 93-98. -/
def profileEntry : M :=
  [("op", .str "query"), ("ns", .str "shop.orders"), ("millis", .int 120),
    ("command", .doc exampleCommand)]

/-- A profiler entry whose command field is a string. -/
def malformedEntry : M :=
  [("op", .str "query"), ("ns", .str "shop.orders"), ("millis", .int 95),
    ("command", .str "find")]

/-- Indented JSON text of `profileEntry` after redaction. -/
def redactedJSON : String :=
  "\x7b\n    \"command\": \x7b\n        \"filter\": \x7b\n            \"status\": \"redacted\"\n        \x7d\n    \x7d,\n    \"millis\": 120,\n    \"ns\": \"shop.orders\",\n    \"op\": \"query\"\n\x7d"

def indexAdvice : String := "db.orders.createIndex(\x7b status: 1 \x7d)"

def answeringChat (text : String) : ChatClient :=
  fun _ => .ok ⟨[⟨⟨"assistant", text⟩⟩]⟩

def failingChat (e : String) : ChatClient :=
  fun _ => .error e

def emptyChat : ChatClient :=
  fun _ => .ok ⟨[]⟩

def downServer : OllamaServer :=
  ⟨fun _ => .ok "", fun _ _ _ => .transportError "connection refused"⟩

/-- A local server answering every request with the given decoded JSON object. -/
def replyingServer (response : List (String × JSON)) : OllamaServer :=
  ⟨fun _ => .ok "request", fun _ _ _ => .decoded response⟩

/-- The reply {"choices":[{"message":{"role":"assistant"}}]}: a first choice without content. -/
def contentlessReply : List (String × JSON) :=
  [("choices", .arr [.obj [("message", .obj [("role", .str "assistant")])]])]

def fetchedShape (hash : String) (entry : M) (chat : ChatClient) : Shape :=
  ⟨hash, .ok entry, chat, downServer⟩

def unfetchedShape (hash : String) (e : String) (chat : ChatClient) : Shape :=
  ⟨hash, .error e, chat, downServer⟩

/-- A reachable store listing the given shapes; the encoder answers with the JSON text of the
redacted `profileEntry`, the only entry the sample runs render. -/
def storeWorld (shapes : List Shape) : World :=
  ⟨none, none, .ok shapes, fun _ => .ok redactedJSON, none⟩

/-- The store of `storeWorld` whose deferred `Disconnect` fails with the given error. -/
def closingWorld (shapes : List Shape) (e : String) : World :=
  ⟨none, none, .ok shapes, fun _ => .ok redactedJSON, some e⟩

/-- The default flags with the local backend selected. -/
def localConfig : Config :=
  ⟨"mongodb://127.0.0.1:27017", "default", "ollama", "llama3", "", 500, 0⟩

/-- The reply {"choices":[{"message":{"role":"assistant","content": indexAdvice}}]}. -/
def adviceReply : List (String × JSON) :=
  [("choices",
    .arr [.obj [("message", .obj [("role", .str "assistant"), ("content", .str indexAdvice)])]])]

/-- A fetched shape served by the given local server. -/
def servedShape (hash : String) (entry : M) (server : OllamaServer) : Shape :=
  ⟨hash, .ok entry, emptyChat, server⟩

/-- The endpoint of source line 162. -/
def ollamaURI : String := "http://localhost:11434/v1/chat/completions"

/-- The request `askChatGPT` sends. -/
def hostedRequest (maxTokens : Int) (promptUser : String) : ChatCompletionRequest :=
  ⟨"gpt-3.5-turbo", maxTokens, [⟨"system", promptSystem⟩, ⟨"user", promptUser⟩]⟩

/-! ### Lemmas on the redactor -/

theorem foldl_delete (keys : List String) (q : M) :
    keys.foldl delete q = q.filter (fun kv => kept keys kv.1) := by
  induction keys generalizing q with
  | nil => simp [kept]
  | cons a t ih =>
    simp only [List.foldl_cons, ih, delete, List.filter_filter]
    congr 1
    funext kv
    by_cases h1 : kv.1 = a <;> by_cases h2 : kv.1 ∈ t <;> simp [kept, h1, h2]

theorem removeKeysAndReplace_loop (q : M) (keys : List String) (s : Value) :
    removeKeysAndReplace q keys s
      = (keys.foldl delete q).map (fun kv => (kv.1, redactValue keys s kv.2)) := by
  rw [removeKeysAndReplace.eq_1,
    ← List.attach_map_coe (keys.foldl delete q) (fun kv => (kv.1, redactValue keys s kv.2))]
  apply List.map_congr_left
  intro kv _
  obtain ⟨⟨k, v⟩, h⟩ := kv
  cases v <;> rfl

theorem removeKeysAndReplace_eq (q : M) (keys : List String) (s : Value) :
    removeKeysAndReplace q keys s
      = (q.filter (fun kv => kept keys kv.1)).map (fun kv => (kv.1, redactValue keys s kv.2)) := by
  rw [removeKeysAndReplace_loop, foldl_delete]

@[simp]
theorem redactValue_doc (keys : List String) (s : Value) (m : M) :
    redactValue keys s (.doc m) = .doc (removeKeysAndReplace m keys s) := rfl

theorem redactValue_leaf (keys : List String) (s v : Value) (h : v.isMapping = false) :
    redactValue keys s v = s := by
  cases v <;> first | rfl | simp [Value.isMapping] at h

@[simp]
theorem redactValue_null (keys : List String) (s : Value) :
    redactValue keys s .null = s := rfl
@[simp]
theorem redactValue_bool (keys : List String) (s : Value) (b : Bool) :
    redactValue keys s (.bool b) = s := rfl
@[simp]
theorem redactValue_int (keys : List String) (s : Value) (i : Int) :
    redactValue keys s (.int i) = s := rfl
@[simp]
theorem redactValue_str (keys : List String) (s : Value) (t : String) :
    redactValue keys s (.str t) = s := rfl
@[simp]
theorem redactValue_arr (keys : List String) (s : Value) (xs : List Value) :
    redactValue keys s (.arr xs) = s := rfl

@[simp]
theorem redactValue_other (keys : List String) (s : Value) (t u : String) :
    redactValue keys s (.other t u) = s := rfl

theorem index_removeKeysAndReplace (q : M) (keys : List String) (s : Value) (k : String) :
    index (removeKeysAndReplace q keys s) k
      = if kept keys k then (index q k).map (redactValue keys s) else none := by
  rw [removeKeysAndReplace_eq]
  induction q with
  | nil => simp [index, List.lookup]
  | cons kv rest ih =>
    obtain ⟨k0, v0⟩ := kv
    by_cases hk : kept keys k0 = true
    · simp only [List.filter_cons, hk, if_true, List.map_cons]
      by_cases he : k = k0
      · subst he
        simp [index, List.lookup, hk]
      · have hb : (k == k0) = false := by simpa using he
        simp only [index, List.lookup, hb] at ih ⊢
        exact ih
    · have hk2 : kept keys k0 = false := by simpa using hk
      simp only [List.filter_cons, hk2]
      by_cases he : k = k0
      · subst he
        simp only [index, hk2] at ih ⊢
        simpa using ih
      · have hb : (k == k0) = false := by simpa using he
        simp only [index, List.lookup, hb] at ih ⊢
        exact ih

theorem keysOf_removeKeysAndReplace (q : M) (keys : List String) (s : Value) :
    keysOf (removeKeysAndReplace q keys s) = (keysOf q).filter (kept keys) := by
  rw [removeKeysAndReplace_eq]
  simp only [keysOf, List.map_map, List.filter_map]
  rfl

theorem kept_iff (keys : List String) (k : String) : kept keys k = true ↔ k ∉ keys := by
  simp [kept]

theorem levelAt_kept (keys : List String) (s : Value) (hs : s.isMapping = false) :
    ∀ (path : List String) (q : M), (∀ k ∈ path, k ∉ keys) →
      levelAt (removeKeysAndReplace q keys s) path
        = (levelAt q path).map (fun m => removeKeysAndReplace m keys s) := by
  intro path
  induction path with
  | nil => intro q _; rfl
  | cons k p ih =>
    intro q hp
    have hk : kept keys k = true := (kept_iff keys k).2 (hp k (List.mem_cons_self _ _))
    have hp2 : ∀ k2 ∈ p, k2 ∉ keys := fun k2 h2 => hp k2 (List.mem_cons_of_mem _ h2)
    simp only [levelAt, index_removeKeysAndReplace, hk, if_true]
    cases hq : index q k with
    | none => simp
    | some v =>
      cases v with
      | doc sub => simpa using ih sub hp2
      | _ => cases s <;> first | rfl | simp [Value.isMapping] at hs

theorem levelAt_removed (keys : List String) (s : Value) (hs : s.isMapping = false) :
    ∀ (path : List String) (q : M), (∃ k ∈ path, k ∈ keys) →
      levelAt (removeKeysAndReplace q keys s) path = none := by
  intro path
  induction path with
  | nil => intro q h; obtain ⟨k, hk, _⟩ := h; cases hk
  | cons k p ih =>
    intro q h
    simp only [levelAt, index_removeKeysAndReplace]
    by_cases hk : kept keys k = true
    · have hp : ∃ k2 ∈ p, k2 ∈ keys := by
        obtain ⟨k2, hk2, hin⟩ := h
        rcases List.mem_cons.1 hk2 with rfl | h3
        · exact absurd hin ((kept_iff keys _).1 hk)
        · exact ⟨k2, h3, hin⟩
      simp only [hk, if_true]
      cases hq : index q k with
      | none => simp
      | some v =>
        cases v with
        | doc sub => simpa using ih sub hp
        | _ => cases s <;> first | rfl | simp [Value.isMapping] at hs
    · simp [hk]

theorem valueAt_removeKeysAndReplace (keys : List String) (s : Value) (hs : s.isMapping = false) :
    ∀ (path : List String) (q : M),
      valueAt (removeKeysAndReplace q keys s) path
        = if (∀ k ∈ path, k ∉ keys) then (valueAt q path).map (redactValue keys s) else none := by
  intro path
  induction path with
  | nil => intro q; simp [valueAt]
  | cons k p ih =>
    intro q
    cases p with
    | nil =>
      simp only [valueAt, index_removeKeysAndReplace]
      by_cases hk : kept keys k = true
      · have := (kept_iff keys k).1 hk
        simp [hk, this]
      · have : k ∈ keys := by
          by_contra hc
          exact hk ((kept_iff keys k).2 hc)
        simp [hk, this]
    | cons k2 p2 =>
      simp only [valueAt, index_removeKeysAndReplace]
      by_cases hk : kept keys k = true
      · have hkn := (kept_iff keys k).1 hk
        simp only [hk, if_true]
        cases hq : index q k with
        | none => simp
        | some v =>
          cases v with
          | doc sub =>
            simp only [Option.map_some', redactValue_doc, ih sub]
            simp [hkn]
          | _ => cases s <;> first | (simp [Value.isMapping] at hs; done) | simp
      · have : k ∈ keys := by
          by_contra hc
          exact hk ((kept_iff keys k).2 hc)
        simp [hk, this]

theorem sizeOf_sub_lt (q : M) (k : String) (m : M) (h : (k, Value.doc m) ∈ q) :
    sizeOf m < sizeOf q := by
  have h1 := List.sizeOf_lt_of_mem h
  simp at h1
  omega

theorem redactValue_idem_leaf (keys : List String) (s : Value) (hs : s.isMapping = false) :
    redactValue keys s s = s := redactValue_leaf keys s s hs

theorem removeKeysAndReplace_idem_aux (keys : List String) (s : Value) (hs : s.isMapping = false) :
    ∀ (n : Nat) (q : M), sizeOf q ≤ n →
      removeKeysAndReplace (removeKeysAndReplace q keys s) keys s
        = removeKeysAndReplace q keys s := by
  intro n
  induction n with
  | zero =>
    intro q hq
    cases q with
    | nil => simp [removeKeysAndReplace_eq]
    | cons a t => simp at hq
  | succ n ih =>
    intro q hq
    rw [removeKeysAndReplace_eq (removeKeysAndReplace q keys s), removeKeysAndReplace_eq q]
    have hfilter : ∀ (l : M),
        (l.map (fun kv => (kv.1, redactValue keys s kv.2))).filter (fun kv => kept keys kv.1)
        = (l.filter (fun kv => kept keys kv.1)).map (fun kv => (kv.1, redactValue keys s kv.2)) := by
      intro l
      rw [List.filter_map]
      rfl
    rw [hfilter, List.filter_filter, List.map_map]
    simp only [Bool.and_self]
    apply List.map_congr_left
    intro kv hkv
    obtain ⟨k, v⟩ := kv
    have hmem : (k, v) ∈ q := (List.mem_filter.1 hkv).1
    simp only [Function.comp]
    congr 1
    cases v with
    | doc m =>
      have hlt := sizeOf_sub_lt q k m hmem
      simp only [redactValue_doc]
      rw [ih m (by omega)]
    | _ => exact redactValue_leaf keys s s hs

theorem loop_append (cfg : Config) (w : World) (pre post : List Shape) :
    loop cfg w (pre ++ post)
      = match loop cfg w pre with
        | (evs, some o) => (evs, some o)
        | (evs, none) => (evs ++ (loop cfg w post).1, (loop cfg w post).2) := by
  induction pre with
  | nil => simp [loop]
  | cons sh rest ih =>
    rw [List.cons_append, loop, loop]
    rcases hps : processShape cfg w sh with ⟨evs, _ | o⟩
    · rw [ih]
      rcases hl : loop cfg w rest with ⟨evs2, _ | o2⟩ <;> simp
    · simp

theorem processShape_fetch_error (cfg : Config) (w : World) (sh : Shape) (e : String)
    (h : sh.findOne = .error e) :
    processShape cfg w sh
      = ([.stdout ("Query Hash: " ++ sh.hash),
          .log ("Failed to find document for current hash:  " ++ e)], none) := by
  simp [processShape, h]

theorem processShape_not_mapping (cfg : Config) (w : World) (sh : Shape) (result : M)
    (h : sh.findOne = .ok result) (hc : ∀ c, index result "command" ≠ some (.doc c)) :
    processShape cfg w sh
      = ([.stdout ("Query Hash: " ++ sh.hash)],
          some (.fatal "Failed to extract command field from document")) := by
  cases hq : index result "command" with
  | none => simp [processShape, h, hq]
  | some v =>
    cases v with
    | doc c => exact absurd hq (hc c)
    | _ => simp [processShape, h, hq]

theorem processShape_mapping (cfg : Config) (w : World) (sh : Shape) (result c : M)
    (jsonResult : String) (h : sh.findOne = .ok result)
    (hc : index result "command" = some (.doc c))
    (hm : w.marshalIndent
      (assign result "command" (.doc (removeKeysAndReplace c fixedKeys (.str "redacted"))))
        = .ok jsonResult) :
    processShape cfg w sh
      = ([.stdout ("Query Hash: " ++ sh.hash), .stdout "Redacted Query:", .stdout jsonResult,
          .stdout ""] ++ (advise cfg sh jsonResult).1, (advise cfg sh jsonResult).2) := by
  simp [processShape, h, hc, hm]

theorem loop_skipped (cfg : Config) (w : World) (pre : List Shape)
    (h : ∀ x ∈ pre, ∃ e, x.findOne = .error e) :
    (loop cfg w pre).2 = none ∧ ∀ ev ∈ (loop cfg w pre).1, ev.isAdvisoryCall = false := by
  induction pre with
  | nil => simp [loop]
  | cons sh rest ih =>
    obtain ⟨e, he⟩ := h sh (List.mem_cons_self _ _)
    have ih2 := ih (fun x hx => h x (List.mem_cons_of_mem _ hx))
    simp only [loop, processShape_fetch_error cfg w sh e he]
    refine ⟨ih2.1, ?_⟩
    intro ev hev
    simp only [List.cons_append, List.nil_append, List.mem_cons] at hev
    rcases hev with rfl | rfl | hev
    · rfl
    · rfl
    · exact ih2.2 ev hev

theorem advise_no_key (cfg : Config) (sh : Shape) (promptUser : String)
    (hp : cfg.aiProvider = "openai") (hk : cfg.openaiApiKey = "") :
    advise cfg sh promptUser = ([], some (.fatal "OpenAI API key is required")) := by
  simp [advise, hp, hk]

theorem processShape_no_key_calls (cfg : Config) (w : World) (sh : Shape)
    (hp : cfg.aiProvider = "openai") (hk : cfg.openaiApiKey = "") :
    ∀ ev ∈ (processShape cfg w sh).1, ev.isAdvisoryCall = false := by
  intro ev hev
  cases hf : sh.findOne with
  | error e =>
    rw [processShape_fetch_error cfg w sh e hf] at hev
    simp only [List.mem_cons, List.mem_singleton, List.not_mem_nil, or_false] at hev
    rcases hev with rfl | rfl <;> rfl
  | ok result =>
    by_cases hc : ∃ c, index result "command" = some (.doc c)
    · obtain ⟨c, hc⟩ := hc
      cases hm : w.marshalIndent
          (assign result "command" (.doc (removeKeysAndReplace c fixedKeys (.str "redacted")))) with
      | error e =>
        simp only [processShape, hf, hc, hm, List.mem_singleton] at hev
        subst hev
        rfl
      | ok jsonResult =>
        rw [processShape_mapping cfg w sh result c jsonResult hf hc hm,
          advise_no_key cfg sh _ hp hk] at hev
        simp only [List.append_nil, List.mem_cons, List.not_mem_nil, or_false] at hev
        rcases hev with rfl | rfl | rfl | rfl <;> rfl
    · rw [processShape_not_mapping cfg w sh result hf (fun c h => hc ⟨c, h⟩)] at hev
      simp only [List.mem_singleton] at hev
      subst hev
      rfl

theorem loop_no_key_calls (cfg : Config) (w : World)
    (hp : cfg.aiProvider = "openai") (hk : cfg.openaiApiKey = "") (shapes : List Shape) :
    ∀ ev ∈ (loop cfg w shapes).1, ev.isAdvisoryCall = false := by
  induction shapes with
  | nil => simp [loop]
  | cons sh rest ih =>
    intro ev hev
    have hps := processShape_no_key_calls cfg w sh hp hk
    simp only [loop] at hev
    rcases hq : processShape cfg w sh with ⟨evs, _ | o⟩
    · rw [hq] at hev hps
      simp only [List.mem_append] at hev
      rcases hev with h1 | h2
      · exact hps ev h1
      · exact ih ev h2
    · rw [hq] at hev hps
      exact hps ev hev

theorem main_trace (cfg : Config) (w : World) :
    (main cfg w).trace = []
    ∨ (main cfg w).trace = [.stdout ("No suitable queryHash found in " ++ cfg.dbName ++ " db")]
    ∨ ∃ shapes, (main cfg w).trace = header shapes ++ (loop cfg w shapes).1 := by
  unfold main
  split
  · exact Or.inl rfl
  · split
    · exact Or.inl rfl
    · split
      · exact Or.inl rfl
      · rename_i shapes _
        split
        · exact Or.inr (Or.inl rfl)
        · refine Or.inr (Or.inr ⟨shapes, ?_⟩)
          split
          · rename_i evs msg hl
            rw [hl]
            split <;> rfl
          · rename_i evs o hl
            rw [hl]
          · rename_i evs hl
            rw [hl]
            split <;> rfl

theorem main_of_loop_fatal (cfg : Config) (w : World) (shapes : List Shape) (evs : List Event)
    (msg : String) (hc : w.connect = none) (hp : w.ping = none)
    (hd : w.distinct = .ok shapes) (hne : shapes ≠ [])
    (hl : loop cfg w shapes = (evs, some (.fatal msg))) :
    main cfg w = ⟨header shapes ++ evs, .fatal msg⟩ := by
  have hlen : shapes.length ≠ 0 := by
    intro h0
    exact hne (List.length_eq_zero.1 h0)
  simp [main, hc, hp, hd, hlen, hl]

theorem main_of_loop_none (cfg : Config) (w : World) (shapes : List Shape) (evs : List Event)
    (hc : w.connect = none) (hp : w.ping = none)
    (hd : w.distinct = .ok shapes) (hne : shapes ≠ [])
    (hl : loop cfg w shapes = (evs, none)) :
    main cfg w
      = ⟨header shapes ++ evs,
          match w.disconnect with
          | some e => .fatal e
          | none => .returned⟩ := by
  have hlen : shapes.length ≠ 0 := by
    intro h0
    exact hne (List.length_eq_zero.1 h0)
  simp only [main, hc, hp, hd, hlen, hl, if_false]
  cases w.disconnect <;> rfl

/-! ### Runs of the redactor on the heap: any depth bound from 2 on gives the result -/

theorem inPlace_aliased (n : Nat) :
    removeKeysAndReplaceInPlace (n + 2) aliasedHeap 0 fixedKeys (.map 1)
      = some [(0, [("x", .map 1)]), (1, [("a", .map 1)])] := rfl

theorem inPlace_separate (n : Nat) :
    removeKeysAndReplaceInPlace (n + 2) separateHeap 0 fixedKeys (.map 1)
      = some [(0, [("x", .map 2)]), (1, [("a", .int 1)]), (2, [("a", .map 1)])] := rfl

theorem inPlace_example (n : Nat) :
    (removeKeysAndReplaceInPlace (n + 2) exampleHeap 0 fixedKeys (.str "redacted")).bind
        (fun h => readDocument (n + 2) h 0)
      = some (removeKeysAndReplace exampleCommand fixedKeys (.str "redacted")) := by
  have hv : removeKeysAndReplace exampleCommand fixedKeys (.str "redacted")
      = [("filter", .doc [("status", .str "redacted")])] := by
    simp [exampleCommand, removeKeysAndReplace_eq, kept, fixedKeys]
  rw [hv]
  rfl

/-- C1 (shape preservation of removeKeysAndReplace): with a non-mapping sentinel, the
mappings of the output are exactly the mappings of the input reached through kept keys,
the key list of each of them is the input's key list at that level without the sensitive
keys, nothing lies below a sensitive key, every key found in the output is a non-sensitive
key of the input at the same level, and the example document of the specification
redacts to the stated result. -/
theorem removeKeysAndReplace_shape (query : M) (keysToRemove : List String)
    (replaceValue : Value) (hs : replaceValue.isMapping = false) :
    (∀ path : List String, (∀ k ∈ path, k ∉ keysToRemove) →
      (levelAt (removeKeysAndReplace query keysToRemove replaceValue) path).map keysOf
        = (levelAt query path).map
            (fun m => (keysOf m).filter (fun k => decide (k ∉ keysToRemove))))
    ∧ (∀ path : List String, (∃ k ∈ path, k ∈ keysToRemove) →
      levelAt (removeKeysAndReplace query keysToRemove replaceValue) path = none)
    ∧ (∀ (path : List String) (m : M),
      levelAt (removeKeysAndReplace query keysToRemove replaceValue) path = some m →
      ∀ k ∈ keysOf m, k ∉ keysToRemove ∧ ∃ m₀, levelAt query path = some m₀ ∧ k ∈ keysOf m₀)
    ∧ removeKeysAndReplace exampleCommand fixedKeys (.str "redacted")
        = [("filter", .doc [("status", .str "redacted")])] := by
  have hkeys : ∀ m : M, keysOf (removeKeysAndReplace m keysToRemove replaceValue)
      = (keysOf m).filter (fun k => decide (k ∉ keysToRemove)) := by
    intro m
    rw [keysOf_removeKeysAndReplace]
    congr 1
    funext k
    simp [kept]
  have h1 : ∀ path : List String, (∀ k ∈ path, k ∉ keysToRemove) →
      (levelAt (removeKeysAndReplace query keysToRemove replaceValue) path).map keysOf
        = (levelAt query path).map
            (fun m => (keysOf m).filter (fun k => decide (k ∉ keysToRemove))) := by
    intro path hp
    rw [levelAt_kept keysToRemove replaceValue hs path query hp]
    cases levelAt query path with
    | none => rfl
    | some m => simp [hkeys]
  refine ⟨h1, fun path hp => levelAt_removed keysToRemove replaceValue hs path query hp, ?_, ?_⟩
  · intro path m hm k hk
    by_cases hp : ∀ k ∈ path, k ∉ keysToRemove
    · rw [levelAt_kept keysToRemove replaceValue hs path query hp] at hm
      cases hq : levelAt query path with
      | none => simp [hq] at hm
      | some m₀ =>
        simp only [hq, Option.map_some', Option.some.injEq] at hm
        subst hm
        rw [hkeys] at hk
        have := List.mem_filter.1 hk
        exact ⟨by simpa using this.2, m₀, rfl, this.1⟩
    · have hex : ∃ k ∈ path, k ∈ keysToRemove := by
        by_contra hc
        exact hp (fun k hk hin => hc ⟨k, hk, hin⟩)
      rw [levelAt_removed keysToRemove replaceValue hs path query hex] at hm
      cases hm
  · simp [exampleCommand, removeKeysAndReplace_eq, kept, fixedKeys]

/-- Witness for C1: the theorem at the example document, the fixed key list and the
sentinel "redacted", read at the nested level "filter". -/
theorem removeKeysAndReplace_shape_witness :
    (Value.str "redacted").isMapping = false
    ∧ (levelAt (removeKeysAndReplace exampleCommand fixedKeys (.str "redacted")) ["filter"]).map
        keysOf
      = (levelAt exampleCommand ["filter"]).map
          (fun m => (keysOf m).filter (fun k => decide (k ∉ fixedKeys))) :=
  ⟨rfl, (removeKeysAndReplace_shape exampleCommand fixedKeys (.str "redacted") rfl).1
    ["filter"] (by simp [fixedKeys])⟩

/-- C2 counterexample: with the mapping sentinel {"a": 1} the output of redacting {"x": 5}
holds the non-mapping value 1 at x.a, which is not the sentinel. -/
theorem leaves_not_sentinel_for_mapping_sentinel :
    valueAt (removeKeysAndReplace [("x", .int 5)] fixedKeys (.doc [("a", .int 1)])) ["x", "a"]
        = some (.int 1)
    ∧ (Value.int 1).isMapping = false
    ∧ Value.int 1 ≠ Value.doc [("a", .int 1)] := by
  refine ⟨?_, rfl, by simp⟩
  simp [removeKeysAndReplace_eq, kept, fixedKeys, valueAt, index, List.lookup]

/-- C2 (total redaction of leaves, amended to non-mapping sentinels): every non-mapping
value found at any depth of the output equals the sentinel, and every non-mapping value of
the input at a path of kept keys, a sequence included, is replaced whole by the sentinel. -/
theorem removeKeysAndReplace_leaves (query : M) (keysToRemove : List String)
    (replaceValue : Value) (hs : replaceValue.isMapping = false) :
    (∀ (path : List String) (v : Value),
      valueAt (removeKeysAndReplace query keysToRemove replaceValue) path = some v →
      v.isMapping = false → v = replaceValue)
    ∧ (∀ (path : List String) (v : Value), (∀ k ∈ path, k ∉ keysToRemove) →
      valueAt query path = some v → v.isMapping = false →
      valueAt (removeKeysAndReplace query keysToRemove replaceValue) path = some replaceValue)
    ∧ (∀ (path : List String) (xs : List Value), (∀ k ∈ path, k ∉ keysToRemove) →
      valueAt query path = some (.arr xs) →
      valueAt (removeKeysAndReplace query keysToRemove replaceValue) path = some replaceValue) := by
  have h2 : ∀ (path : List String) (v : Value), (∀ k ∈ path, k ∉ keysToRemove) →
      valueAt query path = some v → v.isMapping = false →
      valueAt (removeKeysAndReplace query keysToRemove replaceValue) path = some replaceValue := by
    intro path v hp hv hl
    rw [valueAt_removeKeysAndReplace keysToRemove replaceValue hs path query, if_pos hp, hv]
    simp [redactValue_leaf keysToRemove replaceValue v hl]
  refine ⟨?_, h2, fun path xs hp hv => h2 path (.arr xs) hp hv rfl⟩
  intro path v hv hl
  rw [valueAt_removeKeysAndReplace keysToRemove replaceValue hs path query] at hv
  split at hv
  · cases hq : valueAt query path with
    | none => simp [hq] at hv
    | some v₀ =>
      simp only [hq, Option.map_some', Option.some.injEq] at hv
      subst hv
      cases v₀ with
      | doc m => simp [Value.isMapping] at hl
      | _ => rfl
  · cases hv

/-- Witness for C2: the amended theorem at a document with a sequence of mappings under
"$or", read at that key. -/
theorem removeKeysAndReplace_leaves_witness :
    (Value.str "redacted").isMapping = false
    ∧ valueAt (removeKeysAndReplace sequenceCommand fixedKeys (.str "redacted"))
        ["filter", "$or"] = some (.str "redacted") :=
  ⟨rfl, (removeKeysAndReplace_leaves sequenceCommand fixedKeys (.str "redacted") rfl).2.2
    ["filter", "$or"] [.doc [("status", .str "open")], .doc [("qty", .int 5)]]
    (by simp [fixedKeys]) (by simp [sequenceCommand, valueAt, index, List.lookup])⟩

/-- C3 (idempotence of removeKeysAndReplace): with a non-mapping sentinel, redacting the
output again with the same key list and sentinel gives the output back. -/
theorem removeKeysAndReplace_idempotent (query : M) (keysToRemove : List String)
    (replaceValue : Value) (hs : replaceValue.isMapping = false) :
    removeKeysAndReplace (removeKeysAndReplace query keysToRemove replaceValue)
        keysToRemove replaceValue
      = removeKeysAndReplace query keysToRemove replaceValue :=
  removeKeysAndReplace_idem_aux keysToRemove replaceValue hs (sizeOf query) query (Nat.le_refl _)

/-- Witness for C3: the theorem at the example document of the specification. -/
theorem removeKeysAndReplace_idempotent_witness :
    (Value.str "redacted").isMapping = false
    ∧ removeKeysAndReplace (removeKeysAndReplace exampleCommand fixedKeys (.str "redacted"))
        fixedKeys (.str "redacted")
      = removeKeysAndReplace exampleCommand fixedKeys (.str "redacted") :=
  ⟨rfl, removeKeysAndReplace_idempotent exampleCommand fixedKeys (.str "redacted") rfl⟩

/-- C4 (code evaluated at the failing input): when the chat-completion call returns no
error and an empty list of choices, askChatGPT panics on the access to the first choice;
it returns neither an error value nor text. -/
theorem askChatGPT_no_choice_panics (maxTokens : Int) (promptSystem promptUser : String) :
    askChatGPT emptyChat maxTokens promptSystem promptUser
      = ([.chatCompletion ⟨"gpt-3.5-turbo", maxTokens,
            [⟨"system", promptSystem⟩, ⟨"user", promptUser⟩]⟩],
          .panic "runtime error: index out of range [0] with length 0") := rfl

/-- C5 (code evaluated at the failing input): for a reply whose first choice has a message
without content, askOllama returns the empty string and no error but prints nothing, while
for a reply without choices it prints "Failed to parse ollama response". -/
theorem askOllama_contentless_reply_silent (uri model promptSystem promptUser : String) :
    askOllama (replyingServer contentlessReply) uri model promptSystem promptUser
        = ([.httpPost uri "application/json" "request"], .ok "")
    ∧ askOllama (replyingServer []) uri model promptSystem promptUser
        = ([.httpPost uri "application/json" "request",
            .stdout "Failed to parse ollama response"], .ok "") :=
  ⟨rfl, rfl⟩

/-- C6 counterexample: with the hosted backend and an empty API key, a store without shapes
ends the run with exit status 0 after the notice, and a store whose only fetch fails lets
the run return normally; neither run ends with "OpenAI API key is required". -/
theorem no_shape_run_succeeds_without_key :
    main (hostedConfig "") (storeWorld [])
        = ⟨[.stdout "No suitable queryHash found in default db"], .exit 0⟩
    ∧ main (hostedConfig "")
          (storeWorld [unfetchedShape "A1B2C3D4" "mongo: no documents in result" emptyChat])
        = ⟨[.stdout "Distinct queryHash values: [A1B2C3D4]", .stdout "",
            .stdout "Query Hash: A1B2C3D4",
            .log "Failed to find document for current hash:  mongo: no documents in result"],
          .returned⟩ := by
  constructor
  · rfl
  · rfl

/-- C6 (missing credential, amended): with the hosted backend and an empty API key no run
makes an advisory call. When connect, ping and the shape listing succeed: a run whose first
fetched shape has a mapping command that renders as JSON ends there with the fatal error
"OpenAI API key is required"; a run without shapes prints the notice and exits with status
0; a run whose fetches all fail returns normally, or ends with the error of the deferred
Disconnect when that fails. -/
theorem missing_key_fatal_at_first_fetched_shape (cfg : Config)
    (hprovider : cfg.aiProvider = "openai") (hkey : cfg.openaiApiKey = "") :
    (∀ (w : World), ∀ ev ∈ (main cfg w).trace, ev.isAdvisoryCall = false)
    ∧ (∀ (w : World) (pre post : List Shape) (sh : Shape) (result c : M) (jsonResult : String),
        w.connect = none → w.ping = none → w.distinct = .ok (pre ++ sh :: post) →
        (∀ x ∈ pre, ∃ e, x.findOne = .error e) →
        sh.findOne = .ok result → index result "command" = some (.doc c) →
        w.marshalIndent
            (assign result "command" (.doc (removeKeysAndReplace c fixedKeys (.str "redacted"))))
          = .ok jsonResult →
        (main cfg w).outcome = .fatal "OpenAI API key is required")
    ∧ (∀ (w : World), w.connect = none → w.ping = none → w.distinct = .ok [] →
        main cfg w
          = ⟨[.stdout ("No suitable queryHash found in " ++ cfg.dbName ++ " db")], .exit 0⟩)
    ∧ (∀ (w : World) (shapes : List Shape),
        w.connect = none → w.ping = none → w.distinct = .ok shapes → shapes ≠ [] →
        (∀ x ∈ shapes, ∃ e, x.findOne = .error e) →
        (main cfg w).outcome
          = match w.disconnect with
            | some e => .fatal e
            | none => .returned) := by
  refine ⟨?_, ?_, ?_, ?_⟩
  · intro w ev hev
    rcases main_trace cfg w with h | h | ⟨shapes, h⟩
    · rw [h] at hev
      cases hev
    · rw [h] at hev
      simp only [List.mem_singleton] at hev
      subst hev
      rfl
    · rw [h] at hev
      rcases List.mem_append.1 hev with h1 | h2
      · simp only [header, List.mem_cons, List.mem_singleton, List.not_mem_nil, or_false] at h1
        rcases h1 with rfl | rfl <;> rfl
      · exact loop_no_key_calls cfg w hprovider hkey shapes ev h2
  · intro w pre post sh result c jsonResult hc hp hd hpre hf hcmd hm
    have hskip := loop_skipped cfg w pre hpre
    have hps := processShape_mapping cfg w sh result c jsonResult hf hcmd hm
    rw [advise_no_key cfg sh _ hprovider hkey] at hps
    have hl : loop cfg w (pre ++ sh :: post)
        = ((loop cfg w pre).1 ++ ([.stdout ("Query Hash: " ++ sh.hash), .stdout "Redacted Query:",
            .stdout jsonResult, .stdout ""] ++ []),
          some (.fatal "OpenAI API key is required")) := by
      rw [loop_append]
      rcases hq : loop cfg w pre with ⟨evs, _ | o⟩
      · simp [loop, hps]
      · rw [hq] at hskip
        simp at hskip
    rw [main_of_loop_fatal cfg w _ _ _ hc hp hd (by simp) hl]
  · intro w hc hp hd
    simp [main, hc, hp, hd]
  · intro w shapes hc hp hd hne hall
    have hskip := (loop_skipped cfg w shapes hall).1
    have hl : loop cfg w shapes = ((loop cfg w shapes).1, none) := by
      rw [← hskip]
    rw [main_of_loop_none cfg w shapes _ hc hp hd hne hl]

/-- Witness for C6: the amended theorem at a run over an unfetched shape, a fetched shape
with the example entry, and a further shape. -/
theorem missing_key_fatal_at_first_fetched_shape_witness :
    (hostedConfig "").aiProvider = "openai" ∧ (hostedConfig "").openaiApiKey = ""
    ∧ (main (hostedConfig "")
        (storeWorld [unfetchedShape "A1B2C3D4" "mongo: no documents in result" emptyChat,
          fetchedShape "E5F6A7B8" profileEntry (answeringChat indexAdvice),
          fetchedShape "0C9D8E7F" malformedEntry (answeringChat indexAdvice)])).outcome
      = .fatal "OpenAI API key is required" :=
  ⟨rfl, rfl,
    (missing_key_fatal_at_first_fetched_shape (hostedConfig "") rfl rfl).2.1
      (storeWorld [unfetchedShape "A1B2C3D4" "mongo: no documents in result" emptyChat,
        fetchedShape "E5F6A7B8" profileEntry (answeringChat indexAdvice),
        fetchedShape "0C9D8E7F" malformedEntry (answeringChat indexAdvice)])
      [unfetchedShape "A1B2C3D4" "mongo: no documents in result" emptyChat]
      [fetchedShape "0C9D8E7F" malformedEntry (answeringChat indexAdvice)]
      (fetchedShape "E5F6A7B8" profileEntry (answeringChat indexAdvice))
      profileEntry exampleCommand redactedJSON rfl rfl rfl
      (fun x hx => ⟨"mongo: no documents in result", by
        rw [List.mem_singleton] at hx
        rw [hx]
        rfl⟩)
      rfl rfl rfl⟩

/-- C7 counterexample: with a valid key and two fetched shapes, a timeout of the advisory
call for the first shape ends the run with a fatal error; the second shape, whose call
would succeed, is never processed. -/
theorem advisory_timeout_aborts_run :
    main (hostedConfig "sk-test")
        (storeWorld [fetchedShape "A1B2C3D4" profileEntry (failingChat "context deadline exceeded"),
          fetchedShape "E5F6A7B8" profileEntry (answeringChat indexAdvice)])
      = ⟨[.stdout "Distinct queryHash values: [A1B2C3D4 E5F6A7B8]", .stdout "",
          .stdout "Query Hash: A1B2C3D4", .stdout "Redacted Query:", .stdout redactedJSON,
          .stdout "", .chatCompletion (hostedRequest 500 redactedJSON)],
        .fatal "Failed to get response from ChatGPT: context deadline exceeded"⟩ := by
  rfl

/-- C7 (advisory failure, amended): with the hosted backend and a non-empty key, when the
run reaches a fetched shape with a mapping command and the advisory call for it returns an
error, the run ends there with the fatal error "Failed to get response from ChatGPT"; the
trace stops at that call and no later shape is processed. -/
theorem advisory_error_aborts_run (cfg : Config) (w : World) (pre post : List Shape)
    (sh : Shape) (result c : M) (jsonResult e : String) (evs : List Event)
    (hprovider : cfg.aiProvider = "openai") (hkey : cfg.openaiApiKey ≠ "")
    (hconnect : w.connect = none) (hping : w.ping = none)
    (hdistinct : w.distinct = .ok (pre ++ sh :: post))
    (hpre : loop cfg w pre = (evs, none))
    (hfetch : sh.findOne = .ok result) (hcmd : index result "command" = some (.doc c))
    (hjson : w.marshalIndent
        (assign result "command" (.doc (removeKeysAndReplace c fixedKeys (.str "redacted"))))
      = .ok jsonResult)
    (hfail : sh.chat (hostedRequest cfg.openaiMaxTokens jsonResult) = .error e) :
    main cfg w
      = ⟨header (pre ++ sh :: post) ++ (evs ++ [.stdout ("Query Hash: " ++ sh.hash),
            .stdout "Redacted Query:", .stdout jsonResult, .stdout "",
            .chatCompletion (hostedRequest cfg.openaiMaxTokens jsonResult)]),
          .fatal ("Failed to get response from ChatGPT: " ++ e)⟩ := by
  have hadv : advise cfg sh jsonResult
      = ([.chatCompletion (hostedRequest cfg.openaiMaxTokens jsonResult)],
          some (.fatal ("Failed to get response from ChatGPT: " ++ e))) := by
    simp only [hostedRequest] at hfail
    simp [advise, hprovider, hkey, askChatGPT, hfail, hostedRequest]
  have hps := processShape_mapping cfg w sh result c jsonResult hfetch hcmd hjson
  rw [hadv] at hps
  have hl : loop cfg w (pre ++ sh :: post)
      = (evs ++ [.stdout ("Query Hash: " ++ sh.hash),
            .stdout "Redacted Query:", .stdout jsonResult, .stdout "",
            .chatCompletion (hostedRequest cfg.openaiMaxTokens jsonResult)],
          some (.fatal ("Failed to get response from ChatGPT: " ++ e))) := by
    rw [loop_append, hpre]
    simp [loop, hps]
  exact main_of_loop_fatal cfg w _ _ _ hconnect hping hdistinct (by simp) hl

/-- Witness for C7: the amended theorem at the run of two fetched shapes whose first
advisory call times out. -/
theorem advisory_error_aborts_run_witness :
    (main (hostedConfig "sk-test")
        (storeWorld [fetchedShape "A1B2C3D4" profileEntry (failingChat "context deadline exceeded"),
          fetchedShape "E5F6A7B8" profileEntry (answeringChat indexAdvice)])).outcome
      = .fatal "Failed to get response from ChatGPT: context deadline exceeded" :=
  congrArg Run.outcome
    (advisory_error_aborts_run (hostedConfig "sk-test")
      (storeWorld [fetchedShape "A1B2C3D4" profileEntry (failingChat "context deadline exceeded"),
        fetchedShape "E5F6A7B8" profileEntry (answeringChat indexAdvice)])
      [] [fetchedShape "E5F6A7B8" profileEntry (answeringChat indexAdvice)]
      (fetchedShape "A1B2C3D4" profileEntry (failingChat "context deadline exceeded"))
      profileEntry exampleCommand redactedJSON "context deadline exceeded" []
      rfl (by decide) rfl rfl rfl rfl rfl rfl rfl rfl)

/-- C8 counterexample: in a run over a well-formed shape followed by a shape whose command
is a string, the advisory call for the first shape is made and answered before the run
aborts at the second shape. -/
theorem abort_after_earlier_advisory_call :
    main (hostedConfig "sk-test")
        (storeWorld [fetchedShape "A1B2C3D4" profileEntry (answeringChat indexAdvice),
          fetchedShape "E5F6A7B8" malformedEntry (answeringChat indexAdvice)])
      = ⟨[.stdout "Distinct queryHash values: [A1B2C3D4 E5F6A7B8]", .stdout "",
          .stdout "Query Hash: A1B2C3D4", .stdout "Redacted Query:", .stdout redactedJSON,
          .stdout "", .chatCompletion (hostedRequest 500 redactedJSON),
          .stdout "Response from ChatGPT:", .stdout hyphens, .stdout indexAdvice,
          .stdout hyphens, .stdout "",
          .stdout "Query Hash: E5F6A7B8"],
        .fatal "Failed to extract command field from document"⟩ := by
  rfl

/-- C8 (fatal precondition, amended): when the run reaches a shape whose fetched entry has
no mapping under "command", it aborts there with "Failed to extract command field from
document"; the trace holds the events of the earlier shapes and the hash line only, so no
advisory call is made for that shape or a later one, and none at all when every earlier
fetch failed. -/
theorem non_mapping_command_aborts_run (cfg : Config) (w : World) (pre post : List Shape)
    (sh : Shape) (result : M) (evs : List Event)
    (hconnect : w.connect = none) (hping : w.ping = none)
    (hdistinct : w.distinct = .ok (pre ++ sh :: post))
    (hpre : loop cfg w pre = (evs, none))
    (hfetch : sh.findOne = .ok result)
    (hcmd : ∀ c, index result "command" ≠ some (.doc c)) :
    main cfg w
        = ⟨header (pre ++ sh :: post) ++ (evs ++ [.stdout ("Query Hash: " ++ sh.hash)]),
            .fatal "Failed to extract command field from document"⟩
    ∧ (main cfg w).trace.filter Event.isAdvisoryCall = evs.filter Event.isAdvisoryCall
    ∧ ((∀ x ∈ pre, ∃ e, x.findOne = .error e) →
        ∀ ev ∈ (main cfg w).trace, ev.isAdvisoryCall = false) := by
  have hps := processShape_not_mapping cfg w sh result hfetch hcmd
  have hl : loop cfg w (pre ++ sh :: post)
      = (evs ++ [.stdout ("Query Hash: " ++ sh.hash)],
          some (.fatal "Failed to extract command field from document")) := by
    rw [loop_append, hpre]
    simp [loop, hps]
  have hmain := main_of_loop_fatal cfg w _ _ _ hconnect hping hdistinct (by simp) hl
  refine ⟨hmain, ?_, ?_⟩
  · rw [hmain]
    simp [header, List.filter_append, List.filter_cons, Event.isAdvisoryCall]
  · intro hall ev hev
    have hskip := (loop_skipped cfg w pre hall).2
    rw [hpre] at hskip
    rw [hmain] at hev
    simp only [header, List.mem_append, List.mem_cons, List.mem_singleton, List.not_mem_nil,
      or_false] at hev
    rcases hev with (rfl | rfl) | h | rfl
    · rfl
    · rfl
    · exact hskip ev h
    · rfl

/-- Witness for C8: the amended theorem at the run of a well-formed shape followed by a
shape whose command is a string. -/
theorem non_mapping_command_aborts_run_witness :
    (main (hostedConfig "sk-test")
        (storeWorld [fetchedShape "A1B2C3D4" profileEntry (answeringChat indexAdvice),
          fetchedShape "E5F6A7B8" malformedEntry (answeringChat indexAdvice)])).trace.filter
        Event.isAdvisoryCall
      = [.chatCompletion (hostedRequest 500 redactedJSON)] :=
  (non_mapping_command_aborts_run (hostedConfig "sk-test")
    (storeWorld [fetchedShape "A1B2C3D4" profileEntry (answeringChat indexAdvice),
      fetchedShape "E5F6A7B8" malformedEntry (answeringChat indexAdvice)])
    [fetchedShape "A1B2C3D4" profileEntry (answeringChat indexAdvice)] []
    (fetchedShape "E5F6A7B8" malformedEntry (answeringChat indexAdvice))
    malformedEntry
    [.stdout "Query Hash: A1B2C3D4", .stdout "Redacted Query:", .stdout redactedJSON,
      .stdout "", .chatCompletion (hostedRequest 500 redactedJSON),
      .stdout "Response from ChatGPT:", .stdout hyphens, .stdout indexAdvice,
      .stdout hyphens, .stdout ""]
    rfl rfl rfl rfl rfl (by simp [malformedEntry, index, List.lookup])).2.1

/-- C9 counterexample: in a run over a failing and a succeeding fetch whose advisory call is
answered, a failing deferred Disconnect ends the run with its fatal error, after the one
advisory output. -/
theorem disconnect_failure_ends_run_fatally :
    main (hostedConfig "sk-test")
        (closingWorld [unfetchedShape "A1B2C3D4" "mongo: no documents in result" emptyChat,
          fetchedShape "E5F6A7B8" profileEntry (answeringChat indexAdvice)]
          "client is disconnected")
      = ⟨[.stdout "Distinct queryHash values: [A1B2C3D4 E5F6A7B8]", .stdout "",
          .stdout "Query Hash: A1B2C3D4",
          .log "Failed to find document for current hash:  mongo: no documents in result",
          .stdout "Query Hash: E5F6A7B8", .stdout "Redacted Query:", .stdout redactedJSON,
          .stdout "", .chatCompletion (hostedRequest 500 redactedJSON),
          .stdout "Response from ChatGPT:", .stdout hyphens, .stdout indexAdvice,
          .stdout hyphens, .stdout ""],
        .fatal "client is disconnected"⟩ := by
  rfl

/-- C9 (per-shape isolation of fetch failures, amended): in a run over two shapes whose setup
succeeds, where the first fetch fails and the second returns an entry with a mapping command
that renders as JSON, an answer of the configured backend (the hosted API, given a key,
returning a choice; the local server returning a reply with a string at
choices[0].message.content) gives exactly the events listed: the skipped first shape, one
advisory call and one advisory output, for the second shape. The run then returns normally,
or ends with the error of the deferred Disconnect when that fails. In general a failed
fetch adds only its hash line and its log line to the run over the other shapes. -/
theorem fetch_failure_skips_only_that_shape (cfg : Config) (w : World) (sh₁ sh₂ : Shape)
    (e jsonResult : String) (result c : M)
    (hconnect : w.connect = none) (hping : w.ping = none)
    (hdistinct : w.distinct = .ok [sh₁, sh₂])
    (hfetch₁ : sh₁.findOne = .error e) (hfetch₂ : sh₂.findOne = .ok result)
    (hcmd : index result "command" = some (.doc c))
    (hjson : w.marshalIndent
        (assign result "command" (.doc (removeKeysAndReplace c fixedKeys (.str "redacted"))))
      = .ok jsonResult) :
    (∀ (choice : ChatCompletionChoice) (others : List ChatCompletionChoice),
      cfg.aiProvider = "openai" → cfg.openaiApiKey ≠ "" →
      sh₂.chat (hostedRequest cfg.openaiMaxTokens jsonResult) = .ok ⟨choice :: others⟩ →
      main cfg w
        = ⟨header [sh₁, sh₂] ++
            [.stdout ("Query Hash: " ++ sh₁.hash),
              .log ("Failed to find document for current hash:  " ++ e),
              .stdout ("Query Hash: " ++ sh₂.hash), .stdout "Redacted Query:",
              .stdout jsonResult, .stdout "",
              .chatCompletion (hostedRequest cfg.openaiMaxTokens jsonResult),
              .stdout "Response from ChatGPT:", .stdout hyphens,
              .stdout choice.message.content, .stdout hyphens, .stdout ""],
            match w.disconnect with
            | some e₁ => .fatal e₁
            | none => .returned⟩)
    ∧ (∀ (requestBody content : String) (response firstChoice message : List (String × JSON))
        (others : List JSON),
      cfg.aiProvider = "ollama" →
      sh₂.ollama.marshal
          ⟨cfg.ollamaModel, [("system", promptSystem), ("user", jsonResult)]⟩
        = .ok requestBody →
      sh₂.ollama.post ollamaURI "application/json" requestBody = .decoded response →
      List.lookup "choices" response = some (.arr (.obj firstChoice :: others)) →
      List.lookup "message" firstChoice = some (.obj message) →
      List.lookup "content" message = some (.str content) →
      main cfg w
        = ⟨header [sh₁, sh₂] ++
            [.stdout ("Query Hash: " ++ sh₁.hash),
              .log ("Failed to find document for current hash:  " ++ e),
              .stdout ("Query Hash: " ++ sh₂.hash), .stdout "Redacted Query:",
              .stdout jsonResult, .stdout "",
              .httpPost ollamaURI "application/json" requestBody,
              .stdout ("Response from Ollama (" ++ cfg.ollamaModel ++ "):"), .stdout hyphens,
              .stdout content, .stdout hyphens, .stdout ""],
            match w.disconnect with
            | some e₁ => .fatal e₁
            | none => .returned⟩)
    ∧ (∀ (pre post : List Shape) (sh : Shape) (e₀ : String), sh.findOne = .error e₀ →
      (∀ o, (loop cfg w pre).2 = some o →
        loop cfg w (pre ++ sh :: post) = loop cfg w (pre ++ post))
      ∧ ((loop cfg w pre).2 = none →
        loop cfg w (pre ++ post)
            = ((loop cfg w pre).1 ++ (loop cfg w post).1, (loop cfg w post).2)
        ∧ loop cfg w (pre ++ sh :: post)
            = ((loop cfg w pre).1 ++
                ([.stdout ("Query Hash: " ++ sh.hash),
                  .log ("Failed to find document for current hash:  " ++ e₀)] ++
                (loop cfg w post).1), (loop cfg w post).2))) := by
  have hps₁ := processShape_fetch_error cfg w sh₁ e hfetch₁
  have hps₂ := processShape_mapping cfg w sh₂ result c jsonResult hfetch₂ hcmd hjson
  refine ⟨?_, ?_, ?_⟩
  · intro choice others hprovider hkey hreply
    have hadv : advise cfg sh₂ jsonResult
        = ([.chatCompletion (hostedRequest cfg.openaiMaxTokens jsonResult),
            .stdout "Response from ChatGPT:", .stdout hyphens,
            .stdout choice.message.content, .stdout hyphens, .stdout ""], none) := by
      simp only [hostedRequest] at hreply
      simp [advise, hprovider, hkey, askChatGPT, hreply, hostedRequest]
    rw [hadv] at hps₂
    exact main_of_loop_none cfg w _ _ hconnect hping hdistinct (by simp)
      (by simp [loop, hps₁, hps₂])
  · intro requestBody content response firstChoice message others hprovider hmarshal hpost
      hchoices hmessage hcontent
    have hask : askOllama sh₂.ollama ollamaURI cfg.ollamaModel promptSystem jsonResult
        = ([.httpPost ollamaURI "application/json" requestBody], .ok content) := by
      simp [askOllama, hmarshal, hpost, hchoices, hmessage, hcontent]
    have hadv : advise cfg sh₂ jsonResult
        = ([.httpPost ollamaURI "application/json" requestBody,
            .stdout ("Response from Ollama (" ++ cfg.ollamaModel ++ "):"),
            .stdout hyphens, .stdout content, .stdout hyphens, .stdout ""], none) := by
      simp only [ollamaURI] at hask
      simp [advise, hprovider, hask, ollamaURI]
    rw [hadv] at hps₂
    exact main_of_loop_none cfg w _ _ hconnect hping hdistinct (by simp)
      (by simp [loop, hps₁, hps₂])
  · intro pre post sh e₀ hf
    have hps := processShape_fetch_error cfg w sh e₀ hf
    have hcons : loop cfg w (sh :: post)
        = ([.stdout ("Query Hash: " ++ sh.hash),
            .log ("Failed to find document for current hash:  " ++ e₀)] ++
            (loop cfg w post).1, (loop cfg w post).2) := by
      simp [loop, hps]
    constructor
    · intro o ho
      rw [loop_append cfg w pre post, loop_append cfg w pre (sh :: post)]
      rcases hq : loop cfg w pre with ⟨evs, _ | o2⟩
      · rw [hq] at ho
        cases ho
      · rfl
    · intro hnone
      rw [loop_append cfg w pre post, loop_append cfg w pre (sh :: post), hcons]
      rcases hq : loop cfg w pre with ⟨evs, _ | o2⟩
      · exact ⟨rfl, rfl⟩
      · rw [hq] at hnone
        cases hnone

/-- Witness for C9: the amended theorem at a hosted run and at a local run, each over an
unfetched shape followed by a fetched shape whose advisory call is answered. -/
theorem fetch_failure_skips_only_that_shape_witness :
    main (hostedConfig "sk-test")
        (storeWorld [unfetchedShape "A1B2C3D4" "mongo: no documents in result" emptyChat,
          fetchedShape "E5F6A7B8" profileEntry (answeringChat indexAdvice)])
      = ⟨[.stdout "Distinct queryHash values: [A1B2C3D4 E5F6A7B8]", .stdout "",
          .stdout "Query Hash: A1B2C3D4",
          .log "Failed to find document for current hash:  mongo: no documents in result",
          .stdout "Query Hash: E5F6A7B8", .stdout "Redacted Query:", .stdout redactedJSON,
          .stdout "", .chatCompletion (hostedRequest 500 redactedJSON),
          .stdout "Response from ChatGPT:", .stdout hyphens, .stdout indexAdvice,
          .stdout hyphens, .stdout ""],
        .returned⟩
    ∧ main localConfig
        (storeWorld [unfetchedShape "A1B2C3D4" "mongo: no documents in result" emptyChat,
          servedShape "E5F6A7B8" profileEntry (replyingServer adviceReply)])
      = ⟨[.stdout "Distinct queryHash values: [A1B2C3D4 E5F6A7B8]", .stdout "",
          .stdout "Query Hash: A1B2C3D4",
          .log "Failed to find document for current hash:  mongo: no documents in result",
          .stdout "Query Hash: E5F6A7B8", .stdout "Redacted Query:", .stdout redactedJSON,
          .stdout "", .httpPost ollamaURI "application/json" "request",
          .stdout "Response from Ollama (llama3):", .stdout hyphens, .stdout indexAdvice,
          .stdout hyphens, .stdout ""],
        .returned⟩ :=
  ⟨(fetch_failure_skips_only_that_shape (hostedConfig "sk-test")
      (storeWorld [unfetchedShape "A1B2C3D4" "mongo: no documents in result" emptyChat,
        fetchedShape "E5F6A7B8" profileEntry (answeringChat indexAdvice)])
      (unfetchedShape "A1B2C3D4" "mongo: no documents in result" emptyChat)
      (fetchedShape "E5F6A7B8" profileEntry (answeringChat indexAdvice))
      "mongo: no documents in result" redactedJSON profileEntry exampleCommand
      rfl rfl rfl rfl rfl rfl rfl).1
      ⟨⟨"assistant", indexAdvice⟩⟩ [] rfl (by decide) rfl,
    (fetch_failure_skips_only_that_shape localConfig
      (storeWorld [unfetchedShape "A1B2C3D4" "mongo: no documents in result" emptyChat,
        servedShape "E5F6A7B8" profileEntry (replyingServer adviceReply)])
      (unfetchedShape "A1B2C3D4" "mongo: no documents in result" emptyChat)
      (servedShape "E5F6A7B8" profileEntry (replyingServer adviceReply))
      "mongo: no documents in result" redactedJSON profileEntry exampleCommand
      rfl rfl rfl rfl rfl rfl rfl).2.1
      "request" indexAdvice adviceReply
      [("message", .obj [("role", .str "assistant"), ("content", .str indexAdvice)])]
      [("role", .str "assistant"), ("content", .str indexAdvice)] []
      rfl rfl rfl rfl rfl rfl⟩

end IndexAdvisor
